import Mathlib

/-!
Verification of the bounded string buffer (`src/util/array_str.rs`) and the
shared time-zone data model (`src/shared/mod.rs`) of the jiff repository.

Rust strings (`&str`, byte oriented) are modelled as lists of byte values
(`List Nat`), so the Rust byte length `s.len()` is `s.length`. A fallible
Rust operation returning `Option` is modelled with `Option`; a Rust panic
(a fallible `unwrap`) is modelled as `Except.error`, so `Except.ok`
results are exactly the non-panicking runs.
-/

namespace Jiff

/-- A UTF-8 continuation byte: `0x80..=0xBF`. -/
def isCont (b : Nat) : Bool := 0x80 ≤ b && b ≤ 0xBF

/-- Lead byte of a two-byte UTF-8 sequence: `0xC2..=0xDF`. -/
def utf8Lead2 (b0 : Nat) : Bool := 0xC2 ≤ b0 && b0 ≤ 0xDF

/-- Lead byte of a three-byte UTF-8 sequence: `0xE0..=0xEF`. -/
def utf8Lead3 (b0 : Nat) : Bool := 0xE0 ≤ b0 && b0 ≤ 0xEF

/-- Lead byte of a four-byte UTF-8 sequence: `0xF0..=0xF4`. -/
def utf8Lead4 (b0 : Nat) : Bool := 0xF0 ≤ b0 && b0 ≤ 0xF4

/-- Allowed second byte of a three-byte sequence, per the Unicode table of
well-formed byte sequences: after `0xE0` only `0xA0..=0xBF` (rejecting
overlong forms), after `0xED` only `0x80..=0x9F` (rejecting surrogates),
otherwise any continuation byte. -/
def utf8Snd3 (b0 b1 : Nat) : Bool :=
  if b0 = 0xE0 then 0xA0 ≤ b1 && b1 ≤ 0xBF
  else if b0 = 0xED then 0x80 ≤ b1 && b1 ≤ 0x9F
  else isCont b1

/-- Allowed second byte of a four-byte sequence: after `0xF0` only
`0x90..=0xBF` (rejecting overlong forms), after `0xF4` only `0x80..=0x8F`
(staying at or below `U+10FFFF`), otherwise any continuation byte. -/
def utf8Snd4 (b0 b1 : Nat) : Bool :=
  if b0 = 0xF0 then 0x90 ≤ b1 && b1 ≤ 0xBF
  else if b0 = 0xF4 then 0x80 ≤ b1 && b1 ≤ 0x8F
  else isCont b1

/-- UTF-8 validity of a byte sequence: exactly the sequences accepted by
the Rust routine `core::str::from_utf8` used by `ArrayStr::as_str`,
following the Unicode table of well-formed byte sequences (ASCII, and
two-, three-, four-byte sequences with the overlong, surrogate and
`U+10FFFF` restrictions encoded in `utf8Snd3` and `utf8Snd4`). -/
def utf8Valid : List Nat → Bool
  | [] => true
  | b0 :: rest =>
    if b0 ≤ 0x7F then utf8Valid rest
    else match rest with
    | [] => false
    | b1 :: rest1 =>
      if utf8Lead2 b0 then isCont b1 && utf8Valid rest1
      else match rest1 with
      | [] => false
      | b2 :: rest2 =>
        if utf8Lead3 b0 then utf8Snd3 b0 b1 && isCont b2 && utf8Valid rest2
        else match rest2 with
        | [] => false
        | b3 :: rest3 =>
          utf8Lead4 b0 && utf8Snd4 b0 b1 && isCont b2 && isCont b3 &&
            utf8Valid rest3

/-- Unfolding equation for `utf8Valid` on a cons cell with an arbitrary
tail (the autogenerated equations require the tail to have constructor
shape). -/
theorem utf8Valid_cons (b0 : Nat) (rest : List Nat) :
    utf8Valid (b0 :: rest) = (if b0 ≤ 0x7F then utf8Valid rest
      else match rest with
      | [] => false
      | b1 :: rest1 =>
        if utf8Lead2 b0 then isCont b1 && utf8Valid rest1
        else match rest1 with
        | [] => false
        | b2 :: rest2 =>
          if utf8Lead3 b0 then utf8Snd3 b0 b1 && isCont b2 && utf8Valid rest2
          else match rest2 with
          | [] => false
          | b3 :: rest3 =>
            utf8Lead4 b0 && utf8Snd4 b0 b1 && isCont b2 && isCont b3 &&
              utf8Valid rest3) := by
  cases rest with
  | nil => simp [utf8Valid]
  | cons b1 rest1 => cases rest1 with
    | nil => simp [utf8Valid]
    | cons b2 rest2 => cases rest2 with
      | nil => simp [utf8Valid]
      | cons b3 rest3 => simp [utf8Valid]

/-- Concatenating two valid UTF-8 byte sequences yields a valid UTF-8 byte
sequence. -/
theorem utf8Valid_append (xs ys : List Nat) (hx : utf8Valid xs = true)
    (hy : utf8Valid ys = true) : utf8Valid (xs ++ ys) = true := by
  induction xs using utf8Valid.induct with
  | case1 => simpa using hy
  | case2 b0 rest h ih =>
    rw [List.cons_append, utf8Valid_cons, if_pos h]
    rw [utf8Valid_cons, if_pos h] at hx
    exact ih hx
  | case3 b0 h =>
    rw [utf8Valid_cons, if_neg h] at hx
    simp at hx
  | case4 b0 h1 b1 rest1 h2 ih =>
    rw [utf8Valid_cons, if_neg h1] at hx
    rw [List.cons_append, List.cons_append, utf8Valid_cons, if_neg h1]
    simp [h2] at hx ⊢
    exact ⟨hx.1, ih hx.2⟩
  | case5 b0 h1 b1 h2 =>
    rw [utf8Valid_cons, if_neg h1] at hx
    simp [h2] at hx
  | case6 b0 h1 b1 h2 b2 rest2 h3 ih =>
    rw [utf8Valid_cons, if_neg h1] at hx
    rw [List.cons_append, List.cons_append, List.cons_append, utf8Valid_cons,
      if_neg h1]
    simp [h2, h3] at hx ⊢
    exact ⟨hx.1, ih hx.2⟩
  | case7 b0 h1 b1 h2 b2 h3 =>
    rw [utf8Valid_cons, if_neg h1] at hx
    simp [h2, h3] at hx
  | case8 b0 h1 b1 h2 b2 h3 b3 rest3 ih =>
    rw [utf8Valid_cons, if_neg h1] at hx
    rw [List.cons_append, List.cons_append, List.cons_append,
      List.cons_append, utf8Valid_cons, if_neg h1]
    simp [h2, h3] at hx ⊢
    exact ⟨hx.1, ih hx.2⟩

/-- A run of NUL bytes is valid UTF-8 (NUL is an ASCII byte). -/
theorem utf8Valid_replicate_zero (k : Nat) :
    utf8Valid (List.replicate k 0) = true := by
  induction k with
  | zero => rfl
  | succ n ih => simpa [List.replicate, utf8Valid_cons] using ih

/-- The bounded string of `src/util/array_str.rs`: a fixed capacity UTF-8
string on the stack. `bytes` models the backing array `[u8; N]` (that it
always has length `N` is proved from the constructor, see
`arraystr_new_invariant`), and `len` models the `u8` field holding the
number of bytes used. The derived Rust `PartialEq`/`Eq` (whole-struct,
field-by-field) is modelled by decidable equality of this structure. -/
structure ArrayStr (N : Nat) where
  bytes : List Nat
  len : Nat
deriving DecidableEq

/-- `ArrayStr::new`: returns `none` if the input exceeds `N` bytes,
otherwise copies the input into a buffer of `N` zeroed bytes and records
the length. The conversion `u8::try_from(len).unwrap()` panics
(`Except.error`) when the length does not fit in a `u8`; the source
asserts `N <= u8::MAX` (its `debug_assert`), so this never happens for
the capacities the crate uses. -/
def ArrayStr.new (N : Nat) (s : List Nat) : Except String (Option (ArrayStr N)) :=
  if s.length > N then Except.ok none
  else if s.length ≤ 255 then
    Except.ok (some { bytes := s ++ List.replicate (N - s.length) 0,
                      len := s.length })
  else Except.error "u8 conversion of len failed"

/-- The `0..len` byte prefix of the backing buffer: the logical string
content that `ArrayStr::as_str` exposes. -/
def ArrayStr.strView {N : Nat} (a : ArrayStr N) : List Nat :=
  a.bytes.take a.len

/-- `ArrayStr::as_str`: returns the `0..len` prefix as a string slice by
running `core::str::from_utf8` on it and unwrapping; the unwrap panics
(`Except.error`) if that prefix were not valid UTF-8. -/
def ArrayStr.as_str {N : Nat} (a : ArrayStr N) : Except String (List Nat) :=
  if utf8Valid (ArrayStr.strView a) then Except.ok (ArrayStr.strView a)
  else Except.error "from_utf8 failed"

/-- `impl From<&static str> for ArrayStr`: calls `ArrayStr::new` and
unwraps the returned `Option`, so it panics when `new` returns `None`
(and propagates a panic from `new` itself). -/
def ArrayStr.fromStatic (N : Nat) (s : List Nat) : Except String (ArrayStr N) :=
  match ArrayStr.new N s with
  | Except.error e => Except.error e
  | Except.ok none => Except.error "called unwrap on a None value"
  | Except.ok (some a) => Except.ok a

/-- `impl PartialEq<str> for ArrayStr`: `self.as_str() == rhs`. The
result propagates a panic of `as_str`. -/
def ArrayStr.eqStr {N : Nat} (a : ArrayStr N) (rhs : List Nat) :
    Except String Bool :=
  match ArrayStr.as_str a with
  | Except.ok s => Except.ok (decide (s = rhs))
  | Except.error e => Except.error e

/-- `impl PartialEq<ArrayStr<N>> for str`: `self == rhs.as_str()`. -/
def strEqArrayStr {N : Nat} (lhs : List Nat) (a : ArrayStr N) :
    Except String Bool :=
  match ArrayStr.as_str a with
  | Except.ok s => Except.ok (decide (lhs = s))
  | Except.error e => Except.error e

/-- Modelled from the spec: equality and ordering of bounded strings are
defined against plain string views (spec section 4.1). The source file
contains the equality impls but no ordering impl, so the order is
modelled as the Rust `str` order, which is lexicographic byte order, on
the `as_str` views. -/
def ArrayStr.ltView {N : Nat} (a b : ArrayStr N) : Prop :=
  List.Lex (· < ·) (ArrayStr.strView a) (ArrayStr.strView b)

/-- Inversion of a successful `ArrayStr::new`: the input fits, and the
constructed value is the zero-padded buffer with the input length. -/
theorem ArrayStr.new_ok {N : Nat} {s : List Nat} {a : ArrayStr N}
    (h : ArrayStr.new N s = Except.ok (some a)) :
    s.length ≤ N ∧ s.length ≤ 255 ∧
      a.bytes = s ++ List.replicate (N - s.length) 0 ∧ a.len = s.length := by
  unfold ArrayStr.new at h
  split at h
  · simp at h
  · split at h
    · simp only [Except.ok.injEq, Option.some.injEq] at h
      subst h
      refine ⟨by omega, by assumption, rfl, rfl⟩
    · simp at h

/-- A successful `ArrayStr::new` on inputs satisfying the documented
capacity bound. -/
theorem ArrayStr.new_succeeds {N : Nat} {s : List Nat}
    (hlen : s.length ≤ N) (hfit : s.length ≤ 255) :
    ArrayStr.new N s =
      Except.ok (some { bytes := s ++ List.replicate (N - s.length) 0,
                        len := s.length }) := by
  unfold ArrayStr.new
  rw [if_neg (by omega), if_pos hfit]

/-- `TzifIndicator` from `src/shared/mod.rs`: how the POSIX-adjacent
semantics of a local time type transition times are interpreted. -/
inductive TzifIndicator
  | LocalWall
  | LocalStandard
  | UTStandard
deriving DecidableEq

/-- `TzifLocalTimeType` from `src/shared/mod.rs`: one historical
offset/DST/abbreviation/indicator record. `offset` is the signed `i32`
UTC offset in seconds; `designation` is the inclusive-exclusive byte
range into the designation blob. -/
structure TzifLocalTimeType where
  offset : Int
  is_dst : Bool
  designation : Nat × Nat
  indicator : TzifIndicator
deriving DecidableEq

/-- `TzifTransition` from `src/shared/mod.rs`: a signed 64-bit UTC
timestamp in seconds plus an index into the type table. -/
structure TzifTransition where
  timestamp : Int
  type_index : Nat
deriving DecidableEq

/-- `TzifTransitionKind` from `src/shared/mod.rs`: how a transition
relates to the offset of its predecessor (equal, strictly greater = gap
of local time, strictly smaller = fold of local time). -/
inductive TzifTransitionKind
  | Unambiguous
  | Gap
  | Fold
deriving DecidableEq

/-- `TzifTransitionInfo` from `src/shared/mod.rs`: the type-table index
of a transition plus its kind. -/
structure TzifTransitionInfo where
  type_index : Nat
  kind : TzifTransitionKind
deriving DecidableEq

/-- `TzifTransitions` from `src/shared/mod.rs`: the column-oriented
transition table (timestamps, civil window starts, civil window ends,
infos), generic over the sequence representations. -/
structure TzifTransitions (TIMESTAMPS STARTS ENDS INFOS : Type) where
  timestamps : TIMESTAMPS
  civil_starts : STARTS
  civil_ends : ENDS
  infos : INFOS

/-- `TzifFixed` from `src/shared/mod.rs`: the fixed metadata of a rule
set, generic over the string and abbreviation representations. -/
structure TzifFixed (STRING ABBREV : Type) where
  name : Option STRING
  version : Nat
  checksum : Nat
  designations : STRING
  posix_tz : Option ABBREV

/-- The classification of one transition relative to its predecessor,
together with its civil-time ambiguity window. Civil instants are
represented by their local second count, so rendering a UTC instant `ts`
in local civil time under offset `o` is `ts + o`, and the half-open
window is `[civilStart, civilEnd)` in local seconds. For an
`Unambiguous` transition the `civil_ends` entry is unused and stored as
all zeroes. -/
structure TransitionClass where
  kind : TzifTransitionKind
  civilStart : Int
  civilEnd : Int
deriving DecidableEq

/-- Modelled from the spec: the gap/fold/unambiguous classifier (spec
section 4.3). The algorithm computing `TzifTransitionKind` from the two
offsets is not under `src/`; only the kind enumeration and its
documentation are, so the classifier is taken from the spec: equal
offsets give `Unambiguous` (zeroed end entry); a strictly greater new
offset gives a `Gap` of size `oNew - oPrev` starting at the transition
UTC instant rendered with the new offset; a strictly smaller new offset
gives a `Fold` of size `oPrev - oNew` starting at the same rendering. -/
def classifyTransition (oPrev oNew ts : Int) : TransitionClass :=
  if oNew = oPrev then
    { kind := TzifTransitionKind.Unambiguous, civilStart := ts + oNew,
      civilEnd := 0 }
  else if oPrev < oNew then
    { kind := TzifTransitionKind.Gap, civilStart := ts + oNew,
      civilEnd := ts + oNew + (oNew - oPrev) }
  else
    { kind := TzifTransitionKind.Fold, civilStart := ts + oNew,
      civilEnd := ts + oNew + (oPrev - oNew) }

/-- Membership in the half-open civil-time ambiguity window
`[civilStart, civilEnd)` of a classified transition. -/
def TransitionClass.inWindow (c : TransitionClass) (x : Int) : Prop :=
  c.civilStart ≤ x ∧ x < c.civilEnd

/-- `PosixDay` from `src/shared/mod.rs`: the calendar part of a POSIX
rule; field widths `i16`/`i8` are modelled as integers with the
documented ranges stated in `PosixDay.valid`. -/
inductive PosixDay
  | JulianOne (n : Int)
  | JulianZero (n : Int)
  | WeekdayOfMonth (month : Int) (week : Int) (weekday : Int)
deriving DecidableEq

/-- `PosixTime` from `src/shared/mod.rs`: seconds past local midnight of
a transition time (may be negative or at least 86400). -/
structure PosixTime where
  second : Int
deriving DecidableEq

/-- `PosixOffset` from `src/shared/mod.rs`: signed seconds of a POSIX
offset. -/
structure PosixOffset where
  second : Int
deriving DecidableEq

/-- `PosixDayTime` from `src/shared/mod.rs`: calendar rule plus
seconds-of-day transition time. -/
structure PosixDayTime where
  date : PosixDay
  time : PosixTime
deriving DecidableEq

/-- `PosixRule` from `src/shared/mod.rs`: the start and end day-times of
a recurring DST rule. -/
structure PosixRule where
  start : PosixDayTime
  «end» : PosixDayTime
deriving DecidableEq

/-- `PosixDst` from `src/shared/mod.rs`: DST abbreviation, DST offset
and the recurring rule. -/
structure PosixDst (ABBREV : Type) where
  «abbrev» : ABBREV
  offset : PosixOffset
  rule : PosixRule

/-- `PosixTimeZone` from `src/shared/mod.rs`: standard abbreviation and
offset plus an optional DST component. -/
structure PosixTimeZone (ABBREV : Type) where
  std_abbrev : ABBREV
  std_offset : PosixOffset
  dst : Option (PosixDst ABBREV)

/-- The valid ranges documented on the `PosixDay` fields in
`src/shared/mod.rs`: `JulianOne` in `1..=365`, `JulianZero` in
`0..=365`, and `WeekdayOfMonth` with month `1..=12`, week `1..=5` and
weekday `0..=6` (0 = Sunday). -/
def PosixDay.valid : PosixDay → Prop
  | PosixDay.JulianOne n => 1 ≤ n ∧ n ≤ 365
  | PosixDay.JulianZero n => 0 ≤ n ∧ n ≤ 365
  | PosixDay.WeekdayOfMonth month week weekday =>
      (1 ≤ month ∧ month ≤ 12) ∧ (1 ≤ week ∧ week ≤ 5) ∧
        (0 ≤ weekday ∧ weekday ≤ 6)

/-- A `PosixDay` occurring in a rule set: it is the start or end day of
the DST rule of the zone. -/
def PosixDay.occursIn {A : Type} (d : PosixDay) (tz : PosixTimeZone A) :
    Prop :=
  ∃ p ∈ tz.dst, d = p.rule.start.date ∨ d = p.rule.«end».date

/-- Modelled from the spec: the external POSIX descriptor parser hands
this core only rule sets whose day rules satisfy the documented field
ranges (decoder contract, spec sections 3 and 6); no constructor of
`PosixDay` values exists under `src/`. -/
def PosixTimeZone.wellFormed {A : Type} (tz : PosixTimeZone A) : Prop :=
  ∀ p ∈ tz.dst, PosixDay.valid p.rule.start.date ∧
    PosixDay.valid p.rule.«end».date

/-- Helper: the length-to-`u8` conversion in `ArrayStr::new` panics when
the input fits the capacity but its length exceeds `u8::MAX`. -/
theorem ArrayStr.new_u8_overflow {N : Nat} {s : List Nat}
    (h1 : ¬ s.length > N) (h2 : ¬ s.length ≤ 255) :
    ArrayStr.new N s = Except.error "u8 conversion of len failed" := by
  unfold ArrayStr.new
  rw [if_neg h1, if_neg h2]

/-- Helper: `ArrayStr::new` returns `None` (no panic) whenever the input
exceeds the capacity. -/
theorem ArrayStr.new_none {N : Nat} {s : List Nat} (h : s.length > N) :
    ArrayStr.new N s = Except.ok none := by
  unfold ArrayStr.new
  rw [if_pos h]

/-- Claim C1: for every string `s` of byte length at most `N` (with the
capacity bound `N < 256` that the spec puts on BoundedString and the
source documents for `ArrayStr`), `ArrayStr::new(s)` returns `Some` of a
value, and `as_str` on that value returns exactly `s`. -/
theorem arraystr_new_within_capacity_roundtrip (N : Nat) (s : List Nat)
    (hN : N ≤ 255) (hlen : s.length ≤ N) (hs : utf8Valid s = true) :
    ∃ a : ArrayStr N, ArrayStr.new N s = Except.ok (some a) ∧
      ArrayStr.as_str a = Except.ok s := by
  refine ⟨_, ArrayStr.new_succeeds hlen (by omega), ?_⟩
  unfold ArrayStr.as_str ArrayStr.strView
  simp [List.take_left, hs]

/-- Witness for C1 at a concrete input. -/
theorem arraystr_new_within_capacity_roundtrip_witness :
    ∃ a : ArrayStr 4, ArrayStr.new 4 [0x6A, 0x69] = Except.ok (some a) ∧
      ArrayStr.as_str a = Except.ok [0x6A, 0x69] :=
  arraystr_new_within_capacity_roundtrip 4 [0x6A, 0x69] (by decide)
    (by decide) (by decide)

/-- Claim C3: for every string whose byte length exceeds `N`,
`ArrayStr::new` returns `None` as a normal result: no panic
(`Except.ok`, not `Except.error`). -/
theorem arraystr_new_exceeding_capacity_returns_none (N : Nat)
    (s : List Nat) (h : s.length > N) :
    ArrayStr.new N s = Except.ok none :=
  ArrayStr.new_none h

/-- Witness for C3 at a concrete input. -/
theorem arraystr_new_exceeding_capacity_returns_none_witness :
    ArrayStr.new 2 [0x61, 0x62, 0x63] = Except.ok none :=
  arraystr_new_exceeding_capacity_returns_none 2 [0x61, 0x62, 0x63]
    (by decide)

/-- Claim C4: every `ArrayStr` produced by `new` satisfies the
invariant: its length is at most `N`, the backing buffer has exactly `N`
bytes and is valid UTF-8 in its entirety (not just the used prefix), and
the first `len` bytes are exactly the logical string. Values are
immutable in this model, so the invariant holds forever. -/
theorem arraystr_new_invariant (N : Nat) (s : List Nat) (a : ArrayStr N)
    (hs : utf8Valid s = true) (h : ArrayStr.new N s = Except.ok (some a)) :
    a.len ≤ N ∧ a.bytes.length = N ∧ utf8Valid a.bytes = true ∧
      a.bytes.take a.len = s := by
  obtain ⟨hcap, hfit, hbytes, hlen⟩ := ArrayStr.new_ok h
  refine ⟨by omega, ?_, ?_, ?_⟩
  · rw [hbytes]
    simp only [List.length_append, List.length_replicate]
    omega
  · rw [hbytes]
    exact utf8Valid_append _ _ hs (utf8Valid_replicate_zero _)
  · rw [hbytes, hlen]
    exact List.take_left s _

/-- Witness for C4 at a concrete input. -/
theorem arraystr_new_invariant_witness :
    (⟨[0x6A, 0x69, 0], 2⟩ : ArrayStr 3).len ≤ 3 ∧
      (⟨[0x6A, 0x69, 0], 2⟩ : ArrayStr 3).bytes.length = 3 ∧
      utf8Valid (⟨[0x6A, 0x69, 0], 2⟩ : ArrayStr 3).bytes = true ∧
      (⟨[0x6A, 0x69, 0], 2⟩ : ArrayStr 3).bytes.take
        (⟨[0x6A, 0x69, 0], 2⟩ : ArrayStr 3).len = [0x6A, 0x69] :=
  arraystr_new_invariant 3 [0x6A, 0x69] ⟨[0x6A, 0x69, 0], 2⟩ (by decide)
    (by rfl)

/-- Claim C5: equality against string slices is defined via the string
views, symmetrically on both sides, and ordering of two bounded strings
agrees with the ordering of their string views (so far as the buffer
view is valid UTF-8, which construction guarantees). -/
theorem arraystr_eq_ord_via_string_views {N : Nat} (a b : ArrayStr N)
    (s : List Nat) (ha : utf8Valid (ArrayStr.strView a) = true) :
    (ArrayStr.eqStr a s = Except.ok true ↔ ArrayStr.strView a = s) ∧
    (strEqArrayStr s a = Except.ok true ↔ s = ArrayStr.strView a) ∧
    (ArrayStr.ltView a b ↔
      List.Lex (· < ·) (ArrayStr.strView a) (ArrayStr.strView b)) := by
  unfold ArrayStr.eqStr strEqArrayStr ArrayStr.as_str
  rw [if_pos ha]
  exact ⟨by simp, by simp, Iff.rfl⟩

/-- Witness for C5 at concrete values. -/
theorem arraystr_eq_ord_via_string_views_witness :
    (ArrayStr.eqStr (⟨[0x61, 0, 0], 1⟩ : ArrayStr 3) [0x61] =
        Except.ok true ↔
      ArrayStr.strView (⟨[0x61, 0, 0], 1⟩ : ArrayStr 3) = [0x61]) ∧
    (strEqArrayStr [0x61] (⟨[0x61, 0, 0], 1⟩ : ArrayStr 3) =
        Except.ok true ↔
      [0x61] = ArrayStr.strView (⟨[0x61, 0, 0], 1⟩ : ArrayStr 3)) ∧
    (ArrayStr.ltView (⟨[0x61, 0, 0], 1⟩ : ArrayStr 3)
        (⟨[0x62, 0, 0], 1⟩ : ArrayStr 3) ↔
      List.Lex (· < ·)
        (ArrayStr.strView (⟨[0x61, 0, 0], 1⟩ : ArrayStr 3))
        (ArrayStr.strView (⟨[0x62, 0, 0], 1⟩ : ArrayStr 3))) :=
  arraystr_eq_ord_via_string_views (⟨[0x61, 0, 0], 1⟩ : ArrayStr 3)
    (⟨[0x62, 0, 0], 1⟩ : ArrayStr 3) [0x61] (by decide)

/-- Claim C6: with the capacity bound `N < 256`, the stored length of
any constructed `ArrayStr` fits in a `u8`, and under the precondition
that the input fits the capacity the internal `u8` conversion of the
length in `ArrayStr::new` cannot fail: `new` never panics
(`Except.error`) there. -/
theorem arraystr_len_fits_u8 (N : Nat) (s : List Nat) (hN : N ≤ 255) :
    (∀ t : List Nat, ∀ a : ArrayStr N,
        ArrayStr.new N t = Except.ok (some a) → a.len ≤ 255) ∧
    (s.length ≤ N →
      (∃ a, ArrayStr.new N s = Except.ok (some a)) ∧
        ∀ e : String, ArrayStr.new N s ≠ Except.error e) := by
  constructor
  · intro t a h
    obtain ⟨hcap, _, _, hlen⟩ := ArrayStr.new_ok h
    omega
  · intro hlen
    rw [ArrayStr.new_succeeds hlen (by omega)]
    exact ⟨⟨_, rfl⟩, fun e => by simp⟩

/-- Witness for C6 at a concrete input. -/
theorem arraystr_len_fits_u8_witness :
    (∀ t : List Nat, ∀ a : ArrayStr 255,
        ArrayStr.new 255 t = Except.ok (some a) → a.len ≤ 255) ∧
    ((List.replicate 255 0x61).length ≤ 255 →
      (∃ a, ArrayStr.new 255 (List.replicate 255 0x61) =
          Except.ok (some a)) ∧
        ∀ e : String, ArrayStr.new 255 (List.replicate 255 0x61) ≠
          Except.error e) :=
  arraystr_len_fits_u8 255 (List.replicate 255 0x61) (by decide)

/-- Claim C2: the transition classifier yields `Unambiguous` when the
offsets are equal; a `Gap` of size `oNew - oPrev` when the new offset is
strictly greater, whose half-open window starts at the transition UTC
instant rendered in local civil time with the new offset; and a `Fold`
of size `oPrev - oNew` when the new offset is strictly smaller, with the
analogous half-open window. -/
theorem classifier_kind_and_window (oPrev oNew ts : Int) :
    (oNew = oPrev →
      (classifyTransition oPrev oNew ts).kind =
        TzifTransitionKind.Unambiguous) ∧
    (oNew > oPrev →
      (classifyTransition oPrev oNew ts).kind = TzifTransitionKind.Gap ∧
      (classifyTransition oPrev oNew ts).civilStart = ts + oNew ∧
      (classifyTransition oPrev oNew ts).civilEnd =
        (classifyTransition oPrev oNew ts).civilStart + (oNew - oPrev) ∧
      ∀ x : Int, (classifyTransition oPrev oNew ts).inWindow x ↔
        ts + oNew ≤ x ∧ x < ts + oNew + (oNew - oPrev)) ∧
    (oNew < oPrev →
      (classifyTransition oPrev oNew ts).kind = TzifTransitionKind.Fold ∧
      (classifyTransition oPrev oNew ts).civilStart = ts + oNew ∧
      (classifyTransition oPrev oNew ts).civilEnd =
        (classifyTransition oPrev oNew ts).civilStart + (oPrev - oNew) ∧
      ∀ x : Int, (classifyTransition oPrev oNew ts).inWindow x ↔
        ts + oNew ≤ x ∧ x < ts + oNew + (oPrev - oNew)) := by
  unfold classifyTransition
  refine ⟨fun h => by rw [if_pos h], fun h => ?_, fun h => ?_⟩
  · rw [if_neg (by omega), if_pos (by omega)]
    exact ⟨rfl, rfl, rfl, fun x => Iff.rfl⟩
  · rw [if_neg (by omega), if_neg (by omega)]
    exact ⟨rfl, rfl, rfl, fun x => Iff.rfl⟩

/-- Witness for C2: the 2015 US Eastern spring-forward transition
(offset change from -18000 to -14400 at UTC timestamp 1425798000)
classifies as a one-hour gap. -/
theorem classifier_kind_and_window_witness :
    (classifyTransition (-18000) (-14400) 1425798000).kind =
      TzifTransitionKind.Gap ∧
    (classifyTransition (-18000) (-14400) 1425798000).civilStart =
      1425798000 + (-14400) ∧
    (classifyTransition (-18000) (-14400) 1425798000).civilEnd =
      (classifyTransition (-18000) (-14400) 1425798000).civilStart +
        ((-14400) - (-18000)) ∧
    ∀ x : Int, (classifyTransition (-18000) (-14400) 1425798000).inWindow x ↔
      1425798000 + (-14400) ≤ x ∧
        x < 1425798000 + (-14400) + ((-14400) - (-18000)) :=
  (classifier_kind_and_window (-18000) (-14400) 1425798000).2.1 (by decide)

/-- Claim C7: a transition classified `Unambiguous` has no ambiguity
window: its `civil_ends` entry is unused and stored as zero. -/
theorem unambiguous_has_zero_civil_end (oPrev oNew ts : Int)
    (h : (classifyTransition oPrev oNew ts).kind =
      TzifTransitionKind.Unambiguous) :
    (classifyTransition oPrev oNew ts).civilEnd = 0 := by
  unfold classifyTransition at h ⊢
  by_cases h1 : oNew = oPrev
  · rw [if_pos h1]
  · rw [if_neg h1] at h ⊢
    by_cases h2 : oPrev < oNew
    · rw [if_pos h2] at h
      exact absurd h (by simp)
    · rw [if_neg h2] at h
      exact absurd h (by simp)

/-- Witness for C7 at a concrete offset-preserving transition. -/
theorem unambiguous_has_zero_civil_end_witness :
    (classifyTransition (-18000) (-18000) 2147483647).civilEnd = 0 :=
  unambiguous_has_zero_civil_end (-18000) (-18000) 2147483647 (by decide)

/-- Claim C8: every `PosixDay` occurring in a well-formed rule set
satisfies the documented field ranges: `JulianOne` in `1..=365`,
`JulianZero` in `0..=365`, `WeekdayOfMonth` with month `1..=12`, week
`1..=5` and weekday `0..=6`. -/
theorem posix_day_field_ranges {A : Type} (tz : PosixTimeZone A)
    (d : PosixDay) (hwf : PosixTimeZone.wellFormed tz)
    (hin : PosixDay.occursIn d tz) :
    (∀ n, d = PosixDay.JulianOne n → 1 ≤ n ∧ n ≤ 365) ∧
    (∀ n, d = PosixDay.JulianZero n → 0 ≤ n ∧ n ≤ 365) ∧
    (∀ month week weekday,
      d = PosixDay.WeekdayOfMonth month week weekday →
        (1 ≤ month ∧ month ≤ 12) ∧ (1 ≤ week ∧ week ≤ 5) ∧
          (0 ≤ weekday ∧ weekday ≤ 6)) := by
  obtain ⟨p, hp, hd⟩ := hin
  have hv := hwf p hp
  have hdv : PosixDay.valid d := by
    rcases hd with h | h
    · rw [h]; exact hv.1
    · rw [h]; exact hv.2
  refine ⟨?_, ?_, ?_⟩
  · intro n hn
    rw [hn] at hdv
    exact hdv
  · intro n hn
    rw [hn] at hdv
    exact hdv
  · intro month week weekday hn
    rw [hn] at hdv
    exact hdv

/-- Witness for C8 on a concrete well-formed POSIX time zone. -/
theorem posix_day_field_ranges_witness :
    (∀ n, PosixDay.JulianOne 60 = PosixDay.JulianOne n →
      1 ≤ n ∧ n ≤ 365) ∧
    (∀ n, PosixDay.JulianOne 60 = PosixDay.JulianZero n →
      0 ≤ n ∧ n ≤ 365) ∧
    (∀ month week weekday,
      PosixDay.JulianOne 60 = PosixDay.WeekdayOfMonth month week weekday →
        (1 ≤ month ∧ month ≤ 12) ∧ (1 ≤ week ∧ week ≤ 5) ∧
          (0 ≤ weekday ∧ weekday ≤ 6)) :=
  posix_day_field_ranges
    (A := List Nat)
    ⟨[0x45, 0x53, 0x54], ⟨-18000⟩,
      some ⟨[0x45, 0x44, 0x54], ⟨-14400⟩,
        ⟨⟨PosixDay.JulianOne 60, ⟨7200⟩⟩,
         ⟨PosixDay.JulianOne 300, ⟨7200⟩⟩⟩⟩⟩
    (PosixDay.JulianOne 60)
    (by
      intro p hp
      injection hp with h
      subst h
      exact ⟨⟨by norm_num, by norm_num⟩, ⟨by norm_num, by norm_num⟩⟩)
    ⟨_, rfl, Or.inl rfl⟩

/-- Claim C9: because `new` copies the input into a zeroed buffer, the
derived whole-struct equality of two constructed values coincides with
equality of the input strings. -/
theorem arraystr_structural_eq_iff_views (N : Nat) (s1 s2 : List Nat)
    (hN : N ≤ 255) (h1 : s1.length ≤ N) (h2 : s2.length ≤ N) :
    ArrayStr.new N s1 = ArrayStr.new N s2 ↔ s1 = s2 := by
  constructor
  · intro h
    rw [ArrayStr.new_succeeds h1 (by omega),
      ArrayStr.new_succeeds h2 (by omega)] at h
    simp only [Except.ok.injEq, Option.some.injEq, ArrayStr.mk.injEq] at h
    obtain ⟨hb, hl⟩ := h
    calc s1 = (s1 ++ List.replicate (N - s1.length) 0).take s1.length :=
          (List.take_left _ _).symm
      _ = (s2 ++ List.replicate (N - s2.length) 0).take s2.length := by
          rw [hb, hl]
      _ = s2 := List.take_left _ _
  · intro h
    rw [h]

/-- Witness for C9 at concrete distinct and equal inputs. -/
theorem arraystr_structural_eq_iff_views_witness :
    (ArrayStr.new 3 [0x61] = ArrayStr.new 3 [0x61, 0x62] ↔
      ([0x61] : List Nat) = [0x61, 0x62]) :=
  arraystr_structural_eq_iff_views 3 [0x61] [0x61, 0x62] (by decide)
    (by decide) (by decide)

/-- Counterexample to C10 as stated: for `N = 256` and a 256-byte input
the byte length is at most `N`, yet the `From` conversion panics,
because the internal length-to-`u8` conversion in `ArrayStr::new` fails
(the source only guards this with a `debug_assert` that `N` never
exceeds `u8::MAX`). -/
theorem from_static_panic_within_capacity_counterexample :
    (List.replicate 256 0x61).length ≤ 256 ∧
      ∃ e : String, ArrayStr.fromStatic 256 (List.replicate 256 0x61) =
        Except.error e := by
  have hlen : (List.replicate 256 0x61).length = 256 :=
    List.length_replicate 256 0x61
  refine ⟨by omega, ⟨"u8 conversion of len failed", ?_⟩⟩
  unfold ArrayStr.fromStatic
  rw [ArrayStr.new_u8_overflow (by omega) (by omega)]

/-- Claim C10 as amended: the `From<&static str>` conversion panics when
the input exceeds `N` bytes; and under the preconditions that the input
is at most `N` bytes and `N` is at most 255 (the documented capacity
bound of the type), it never panics and produces exactly the value
`ArrayStr::new` returns. -/
theorem from_static_agrees_with_new (N : Nat) (s : List Nat) :
    (s.length > N →
      ∃ e : String, ArrayStr.fromStatic N s = Except.error e) ∧
    (N ≤ 255 → s.length ≤ N →
      ∃ a : ArrayStr N, ArrayStr.fromStatic N s = Except.ok a ∧
        ArrayStr.new N s = Except.ok (some a)) := by
  constructor
  · intro h
    unfold ArrayStr.fromStatic
    rw [ArrayStr.new_none h]
    exact ⟨_, rfl⟩
  · intro hN hlen
    unfold ArrayStr.fromStatic
    rw [ArrayStr.new_succeeds hlen (by omega)]
    exact ⟨_, rfl, rfl⟩

/-- Witness for the amended C10 at concrete inputs. -/
theorem from_static_agrees_with_new_witness :
    (∃ e : String, ArrayStr.fromStatic 1 [0x61, 0x62] = Except.error e) ∧
    (∃ a : ArrayStr 1, ArrayStr.fromStatic 1 [0x61] = Except.ok a ∧
      ArrayStr.new 1 [0x61] = Except.ok (some a)) :=
  ⟨(from_static_agrees_with_new 1 [0x61, 0x62]).1 (by decide),
   (from_static_agrees_with_new 1 [0x61]).2 (by decide) (by decide)⟩

end Jiff
